import Mathlib

/-!
Shallow embedding of the speech-metrics analysis and the service-worker
reminder logic of the Speakers Gym repository.

Conventions of the embedding:
* JavaScript numbers are modelled by `JSNum`: a finite rational, an
  infinity, or NaN.  The timestamps and durations crossing the boundary of
  `analyzeMetrics` are finite, so they are passed as plain rationals; the
  non-finite values only arise inside the function (division by zero).
  Binary floating-point rounding of literals such as `0.2`, `0.3`, `0.1`
  is abstracted away: the literals are taken as the exact rationals they
  denote.  No claim below depends on that approximation.
* Rational arithmetic inside the executable definitions uses the
  kernel-reducible forms `qadd`, `qsub`, `qmul`, `qdiv` (the standard
  field operations on `ℚ` are irreducible); the lemmas `qadd_eq` etc.
  identify them with the standard operations, which the theorem
  statements use.
* A JavaScript object is modelled as an association list of field names to
  `JSValue`s, in the insertion order of the object literal, so that the
  shape (which fields exist) and the dynamic type of each field (number or
  string) are part of the model.
-/

/-- Kernel-reducible addition on `ℚ` (equal to `a + b` by `qadd_eq`). -/
def qadd (a b : ℚ) : ℚ := mkRat (a.num * b.den + b.num * a.den) (a.den * b.den)

/-- Kernel-reducible subtraction on `ℚ` (equal to `a - b` by `qsub_eq`). -/
def qsub (a b : ℚ) : ℚ := mkRat (a.num * b.den - b.num * a.den) (a.den * b.den)

/-- Kernel-reducible multiplication on `ℚ` (equal to `a * b` by `qmul_eq`). -/
def qmul (a b : ℚ) : ℚ := mkRat (a.num * b.num) (a.den * b.den)

/-- Kernel-reducible division on `ℚ` (equal to `a / b` by `qdiv_eq`,
with the `ℚ` convention that division by zero gives zero). -/
def qdiv (a b : ℚ) : ℚ := Rat.divInt (a.num * (b.den : ℤ)) ((a.den : ℤ) * b.num)

/-- Model of a JavaScript number: a finite rational, one of the two
infinities, or NaN. -/
inductive JSNum where
  | finite (q : ℚ)
  | posInf
  | negInf
  | nan
deriving DecidableEq

/-- Model of the JavaScript values stored in the metrics object: numbers
and strings. -/
inductive JSValue where
  | num (n : JSNum)
  | str (s : String)
deriving DecidableEq

/-- JavaScript division of two finite numbers: division by zero produces an
infinity (or NaN for 0/0), otherwise the exact quotient. -/
def jsDivQ (a b : ℚ) : JSNum :=
  if b = 0 then
    if a = 0 then .nan else if 0 < a then .posInf else .negInf
  else .finite (qdiv a b)

/-- Multiplication by the positive constant 60, lifted to `JSNum` the way
JavaScript multiplies: infinities and NaN are preserved. -/
def JSNum.times60 : JSNum → JSNum
  | .finite q => .finite (qmul q 60)
  | .posInf => .posInf
  | .negInf => .negInf
  | .nan => .nan

/-- JavaScript `Math.round`: for a finite value, the floor of the value
plus one half (ties round toward positive infinity); infinities and NaN are
returned unchanged. -/
def JSNum.round : JSNum → JSNum
  | .finite q => .finite ((⌊qadd q (mkRat 1 2)⌋ : ℤ) : ℚ)
  | .posInf => .posInf
  | .negInf => .negInf
  | .nan => .nan

/-- JavaScript comparison `n > c` against a finite constant: true for
positive infinity, false for negative infinity and NaN. -/
def JSNum.gtQ : JSNum → ℚ → Bool
  | .finite q, c => decide (c < q)
  | .posInf, _ => true
  | .negInf, _ => false
  | .nan, _ => false

/-- Whether a `JSNum` is a finite number (JavaScript `Number.isFinite`). -/
def JSNum.isFinite : JSNum → Bool
  | .finite _ => true
  | _ => false

/-- JavaScript `Number.prototype.toFixed(2)`: the value rendered with
exactly two digits after the decimal point, rounding to the nearest
hundredth with ties toward the larger value. -/
def toFixed2 (q : ℚ) : String :=
  let n : ℤ := ⌊qadd (qmul q 100) (mkRat 1 2)⌋
  let sign := if n < 0 then "-" else ""
  let m := n.natAbs
  let r := m % 100
  sign ++ toString (m / 100) ++ "." ++ (if r < 10 then "0" else "") ++ toString r

/-- One recognized word from the transcription: its text and its start and
end timestamps in seconds.  The source field `end` is a reserved word in
Lean and is rendered `endTime`. -/
structure Word where
  word : String
  start : ℚ
  endTime : ℚ
deriving DecidableEq

/-- Whitespace test used by the model of JavaScript `trim` (the ASCII
whitespace characters; the exotic Unicode whitespace JavaScript also trims
is not produced by the transcription API and is abstracted away). -/
def isWsChar (c : Char) : Bool :=
  c == ' ' || c == '\t' || c == '\n' || c == '\r'

/-- Model of JavaScript `toLowerCase`, computed structurally on the
character list (ASCII lowering, as the filler words are ASCII). -/
def jsToLower (s : String) : String := ⟨s.data.map Char.toLower⟩

/-- Model of JavaScript `trim`: whitespace removed from both ends,
computed structurally on the character list. -/
def jsTrim (s : String) : String :=
  ⟨((s.data.dropWhile isWsChar).reverse.dropWhile isWsChar).reverse⟩

/-- The filler-word list of `analyzeMetrics` (feedback.js line 111). -/
def fillerWords : List String :=
  ["um", "uh", "like", "you know", "so", "basically", "actually", "literally"]

/-- The filler-word counting loop of `analyzeMetrics` (feedback.js lines
112-121): a fold over the words incrementing a counter whenever the
lowercased, trimmed text is in the filler list. -/
def fillerCount (ws : List Word) : Nat :=
  ws.foldl (fun acc w => if fillerWords.contains (jsTrim (jsToLower w.word)) then acc + 1 else acc) 0

/-- The pause-collecting loop of `analyzeMetrics` (feedback.js lines
123-129), starting from a previous word: for each next word, the gap
`words[i].start - words[i-1].end` is recorded when it exceeds 0.2
seconds. -/
def pausesFrom : Word → List Word → List ℚ
  | _, [] => []
  | prev, w :: rest =>
    if mkRat 1 5 < qsub w.start prev.endTime then
      qsub w.start prev.endTime :: pausesFrom w rest
    else pausesFrom w rest

/-- The list of pauses collected by `analyzeMetrics` over a word list. -/
def pauses : List Word → List ℚ
  | [] => []
  | w :: rest => pausesFrom w rest

/-- JavaScript `pauses.reduce((a, b) => a + b, 0)`: a left fold summing the
list. -/
def sumQ (l : List ℚ) : ℚ := l.foldl qadd 0

/-- JavaScript `Math.max(...pauses)` for the guarded (non-empty) case: a
left fold of `max` over the list, seeded with the head. -/
def maxQ : List ℚ → ℚ
  | [] => 0
  | h :: t => t.foldl max h

/-- The default result object `analyzeMetrics` returns for missing or empty
input (feedback.js lines 101-109). -/
def defaultMetrics : List (String × JSValue) :=
  [("wordsPerMinute", .num (.finite 0)),
   ("averagePauseDuration", .num (.finite 0)),
   ("longestPause", .num (.finite 0)),
   ("fillerWordCount", .num (.finite 0)),
   ("pacingVariation", .str "unknown")]

/-- The metrics analysis of feedback.js lines 100-150.  The `words?`
argument is `none` when the JavaScript caller passes null or undefined and
`some ws` when it passes the array `ws`; `duration` is the recording
duration in seconds.  The result is the returned object as an association
list in literal order. -/
def analyzeMetrics (words? : Option (List Word)) (duration : ℚ) : List (String × JSValue) :=
  match words? with
  | none => defaultMetrics
  | some words =>
    if words.length = 0 then defaultMetrics
    else
      let ps := pauses words
      let wordsPerMinute := (jsDivQ (words.length : ℚ) duration).times60.round
      let pacingVariation :=
        if qmul (words.length : ℚ) (mkRat 3 10) < (ps.length : ℚ) then "halting"
        else if decide ((ps.length : ℚ) < qmul (words.length : ℚ) (mkRat 1 10)) && wordsPerMinute.gtQ 150 then "rushed"
        else "steady"
      [("wordsPerMinute", .num wordsPerMinute),
       ("averagePauseDuration",
         if 0 < ps.length then .str (toFixed2 (qdiv (sumQ ps) (ps.length : ℚ))) else .num (.finite 0)),
       ("longestPause",
         if 0 < ps.length then .str (toFixed2 (maxQ ps)) else .num (.finite 0)),
       ("fillerWordCount", .num (.finite (fillerCount words))),
       ("pauseCount", .num (.finite (ps.length : ℚ))),
       ("pacingVariation", .str pacingVariation)]

/-- Field access on the object model: the value of the first field with the
given name, if any. -/
def getField (obj : List (String × JSValue)) (k : String) : Option JSValue :=
  (obj.find? (fun p => p.1 == k)).map (fun p => p.2)

/-- The pause list of the claims, written declaratively: the gap of each
consecutive pair of words, kept when strictly greater than 0.2 seconds. -/
def specPauses (ws : List Word) : List ℚ :=
  ((ws.zip ws.tail).map (fun p => p.2.start - p.1.endTime)).filter
    (fun g => decide ((1 : ℚ)/5 < g))

/-- The duration resolution of the multipart branch of the feedback handler
(feedback.js line 193): the parsed `duration` form field when present (and
non-empty, so that `parseFloat` runs on it; `fieldDuration` is that parsed
value), otherwise the transcription's `duration` when present and truthy,
otherwise 0. -/
def resolveDuration (fieldDuration : Option ℚ) (transcriptionDuration : Option ℚ) : ℚ :=
  match fieldDuration with
  | some q => q
  | none =>
    match transcriptionDuration with
    | some q => if q = 0 then 0 else q
    | none => 0

/-- A thrown JavaScript error as the catch block of the feedback handler
observes it: an optional numeric `status` field (absent on ordinary
errors, and `some 0` models a present but falsy value) and a message. -/
structure JsError where
  status : Option Nat
  message : String
deriving DecidableEq

/-- The catch block of the audio feedback handler (feedback.js lines
303-331): an HTTP status together with the `error` field of the JSON body
it responds with.  A truthy `error.status` is forwarded with an
`OpenAI API error` body; otherwise a missing API key yields 500 with a
configuration message; otherwise 500 with a generic message. -/
def catchFeedbackError (hasApiKey : Bool) (e : JsError) : Nat × String :=
  match e.status with
  | some s =>
    if s ≠ 0 then (s, "OpenAI API error")
    else if !hasApiKey then (500, "OpenAI API key not configured")
    else (500, "Failed to generate feedback")
  | none =>
    if !hasApiKey then (500, "OpenAI API key not configured")
    else (500, "Failed to generate feedback")

/-- The catch block of the plain text feedback handler (first handler file,
lines 31-34): always status 500 with a generic error body. -/
def catchSimpleFeedbackError : Nat × String :=
  (500, "Failed to generate feedback")

/-- The notification settings record stored under the `notifications` key of
the `settings` store (sw.js).  The `time` string of the source is stored
pre-parsed as scheduled hours and minutes, as `shouldSendNotification`
immediately splits it into the two numbers. -/
structure Settings where
  enabled : Bool
  timeH : Nat
  timeM : Nat
  lastNotificationDate : Option String
deriving DecidableEq

/-- The daily stats record stored under the `daily` key of the `stats`
store (sw.js): the date of the last practice and the number of speeches
practiced that day. -/
structure Stats where
  lastDate : String
  todaySpeeches : Nat
deriving DecidableEq

/-- The notification-eligibility check of sw.js lines 116-148, as a
function of the outcomes of its two storage reads and of the wall clock
(`today` is `new Date().toDateString()`, `nowH`/`nowM` the current hours
and minutes).  A read that throws is an `Except.error`, caught by the
surrounding try to yield `false`. -/
def shouldSendNotification (settingsRes : Except Unit (Option Settings))
    (statsRes : Except Unit (Option Stats))
    (today : String) (nowH nowM : Nat) : Bool :=
  match settingsRes with
  | .error _ => false
  | .ok none => false
  | .ok (some s) =>
    if !s.enabled then false
    else
      match statsRes with
      | .error _ => false
      | .ok st =>
        if (match st with
            | some t => t.lastDate == today && decide (0 < t.todaySpeeches)
            | none => false) then false
        else if s.lastNotificationDate == some today then false
        else decide (s.timeH < nowH) || (decide (nowH = s.timeH) && decide (s.timeM ≤ nowM))

/-- One invocation environment of `sendDailyReminder`: the outcome of the
stats read, whether each storage access throws, and the wall clock at the
time of the invocation. -/
structure ReminderCtx where
  stats : Except Unit (Option Stats)
  settingsReadFails : Bool
  settingsReadFails2 : Bool
  saveFails : Bool
  today : String
  nowH : Nat
  nowM : Nat

/-- The outcome of one `sendDailyReminder` invocation: whether the
notification was shown, and the settings record stored afterwards. -/
structure StepResult where
  notified : Bool
  stored : Option Settings
deriving DecidableEq

/-- The daily reminder flow of sw.js lines 151-179: run the eligibility
check, show the notification when it passes, then re-read the settings and
persist `lastNotificationDate := today`; a throw in that update is caught
and leaves the stored record unchanged. -/
def sendDailyReminder (stored : Option Settings) (c : ReminderCtx) : StepResult :=
  if shouldSendNotification (if c.settingsReadFails then .error () else .ok stored)
      c.stats c.today c.nowH c.nowM then
    ⟨true,
      if c.settingsReadFails2 then stored
      else
        match stored with
        | some s => if c.saveFails then stored else some { s with lastNotificationDate := some c.today }
        | none => stored⟩
  else ⟨false, stored⟩

/-- A sequence of `sendDailyReminder` invocations threading the stored
settings record, returning the `today` value of every invocation that
showed a notification. -/
def runReminders : Option Settings → List ReminderCtx → List String
  | _, [] => []
  | st, c :: rest =>
    (if (sendDailyReminder st c).notified then [c.today] else [])
      ++ runReminders (sendDailyReminder st c).stored rest

theorem qadd_eq (a b : ℚ) : qadd a b = a + b := (Rat.add_def' a b).symm

theorem qsub_eq (a b : ℚ) : qsub a b = a - b := (Rat.sub_def' a b).symm

theorem qmul_eq (a b : ℚ) : qmul a b = a * b := by
  rw [qmul, Rat.mul_def, Rat.normalize_eq_mkRat]

theorem qdiv_eq (a b : ℚ) : qdiv a b = a / b := by
  calc qdiv a b = ((a.num : ℚ) * (b.den : ℚ)) / ((a.den : ℚ) * (b.num : ℚ)) := by
        rw [qdiv, Rat.divInt_eq_div]
        push_cast
        ring_nf
    _ = ((a.num : ℚ) / (a.den : ℚ)) * ((b.den : ℚ) / (b.num : ℚ)) :=
        (div_mul_div_comm _ _ _ _).symm
    _ = a * b⁻¹ := by
        rw [Rat.num_div_den]
        congr 1
        conv_rhs => rw [← Rat.num_div_den b, inv_div]
    _ = a / b := (div_eq_mul_inv a b).symm

theorem mkRat_eq_div' (n : ℤ) (d : ℕ) : mkRat n d = (n : ℚ) / (d : ℚ) := by
  rw [Rat.mkRat_eq_divInt, Rat.divInt_eq_div]
  norm_num

theorem sumQ_aux (l : List ℚ) : ∀ a : ℚ, l.foldl qadd a = a + l.sum := by
  induction l with
  | nil => intro a; simp [sumQ]
  | cons h t ih =>
    intro a
    simp only [List.foldl_cons, List.sum_cons, ih, qadd_eq]
    ring

theorem sumQ_eq_sum (l : List ℚ) : sumQ l = l.sum := by
  simp [sumQ, sumQ_aux]

theorem pausesFrom_eq (rest : List Word) : ∀ prev : Word,
    pausesFrom prev rest
      = (((prev :: rest).zip rest).map (fun p => p.2.start - p.1.endTime)).filter
          (fun g => decide ((1 : ℚ)/5 < g)) := by
  induction rest with
  | nil => intro prev; simp [pausesFrom]
  | cons w t ih =>
    intro prev
    have h15 : mkRat 1 5 = (1 : ℚ)/5 := by rw [mkRat_eq_div']; norm_num
    simp only [pausesFrom, List.zip_cons_cons, List.map_cons, List.filter_cons, ih w,
      qsub_eq, h15]
    by_cases hg : (1 : ℚ)/5 < w.start - prev.endTime
    · simp [hg]
    · simp [hg]

theorem pauses_eq_specPauses (ws : List Word) : pauses ws = specPauses ws := by
  cases ws with
  | nil => simp [pauses, specPauses]
  | cons w rest => simpa [pauses, specPauses] using pausesFrom_eq rest w

theorem foldl_max_mem (t : List ℚ) : ∀ a : ℚ, t.foldl max a = a ∨ t.foldl max a ∈ t := by
  induction t with
  | nil => intro a; left; rfl
  | cons b t ih =>
    intro a
    rcases ih (max a b) with h | h
    · rcases max_choice a b with hab | hab
      · left
        rw [List.foldl_cons, h, hab]
      · right
        rw [List.foldl_cons, h, hab]
        exact List.mem_cons_self _ _
    · right
      rw [List.foldl_cons]
      exact List.mem_cons_of_mem _ h

theorem maxQ_mem (l : List ℚ) (h : l ≠ []) : maxQ l ∈ l := by
  cases l with
  | nil => exact absurd rfl h
  | cons a t =>
    rcases foldl_max_mem t a with hm | hm
    · rw [maxQ, hm]
      exact List.mem_cons_self _ _
    · exact List.mem_cons_of_mem _ hm

theorem le_maxQ (l : List ℚ) : ∀ x ∈ l, x ≤ maxQ l := by
  cases l with
  | nil => simp
  | cons a t =>
    simp only [maxQ]
    have key : ∀ (t : List ℚ) (a : ℚ), a ≤ t.foldl max a ∧ ∀ x ∈ t, x ≤ t.foldl max a := by
      intro t
      induction t with
      | nil => intro a; simp
      | cons b t ih =>
        intro a
        refine ⟨le_trans (le_max_left a b) (ih (max a b)).1, ?_⟩
        intro x hx
        rcases List.mem_cons.mp hx with rfl | hx
        · exact le_trans (le_max_right a x) (ih (max a x)).1
        · exact (ih (max a b)).2 x hx
    intro x hx
    rcases List.mem_cons.mp hx with rfl | hx
    · exact (key t x).1
    · exact (key t a).2 x hx

/-- C1: for a null, undefined, or empty `words` argument, `analyzeMetrics`
returns the default result object with zero metrics and pacing variation
`unknown`, for every duration. -/
theorem claim_C1_empty_default : ∀ d : ℚ,
    analyzeMetrics none d
      = [("wordsPerMinute", JSValue.num (JSNum.finite 0)),
         ("averagePauseDuration", JSValue.num (JSNum.finite 0)),
         ("longestPause", JSValue.num (JSNum.finite 0)),
         ("fillerWordCount", JSValue.num (JSNum.finite 0)),
         ("pacingVariation", JSValue.str "unknown")]
    ∧ analyzeMetrics (some []) d
      = [("wordsPerMinute", JSValue.num (JSNum.finite 0)),
         ("averagePauseDuration", JSValue.num (JSNum.finite 0)),
         ("longestPause", JSValue.num (JSNum.finite 0)),
         ("fillerWordCount", JSValue.num (JSNum.finite 0)),
         ("pacingVariation", JSValue.str "unknown")] := by
  intro d
  exact ⟨rfl, rfl⟩

/-- C4: for a non-empty word sequence and a nonzero duration, the returned
`wordsPerMinute` is the word count divided by the duration, times 60,
rounded to the nearest integer (ties toward positive infinity, as
JavaScript `Math.round` rounds). -/
theorem claim_C4_words_per_minute (ws : List Word) (d : ℚ) (h : ws ≠ []) (hd : d ≠ 0) :
    getField (analyzeMetrics (some ws) d) "wordsPerMinute"
      = some (.num (.finite ((⌊(ws.length : ℚ) / d * 60 + 1/2⌋ : ℤ) : ℚ))) := by
  have hl : ¬ ws.length = 0 := by simpa [List.length_eq_zero] using h
  simp [analyzeMetrics, hl, getField, List.find?, jsDivQ, hd, JSNum.times60, JSNum.round,
    qdiv_eq, qmul_eq, qadd_eq, mkRat_eq_div']

/-- Witness for C4 at one word over one second. -/
theorem claim_C4_witness :
    ([⟨"a", 0, 1⟩] : List Word) ≠ [] ∧ (1 : ℚ) ≠ 0 ∧
    getField (analyzeMetrics (some [⟨"a", 0, 1⟩]) 1) "wordsPerMinute"
      = some (.num (.finite ((⌊(([⟨"a", 0, 1⟩] : List Word).length : ℚ) / 1 * 60 + 1/2⌋ : ℤ) : ℚ))) :=
  ⟨by decide, by decide, claim_C4_words_per_minute [⟨"a", 0, 1⟩] 1 (by decide) (by decide)⟩

/-- C6: `analyzeMetrics` is a pure function of its two arguments: equal
arguments give equal results (the embedding is a function of exactly the
`words` and `duration` inputs, mirroring that the source reads and writes
no state outside its locals). -/
theorem claim_C6_deterministic (w1 w2 : Option (List Word)) (d1 d2 : ℚ)
    (hw : w1 = w2) (hd : d1 = d2) :
    analyzeMetrics w1 d1 = analyzeMetrics w2 d2 := by
  rw [hw, hd]

/-- Witness for C6 at a concrete repeated call. -/
theorem claim_C6_witness :
    (some [(⟨"a", 0, 1⟩ : Word)] = some [(⟨"a", 0, 1⟩ : Word)]) ∧ ((2 : ℚ) = 2) ∧
    analyzeMetrics (some [⟨"a", 0, 1⟩]) 2 = analyzeMetrics (some [⟨"a", 0, 1⟩]) 2 :=
  ⟨rfl, rfl, claim_C6_deterministic _ _ 2 2 rfl rfl⟩

/-- C8: with a non-empty word sequence and duration 0, the unguarded
division makes `wordsPerMinute` positive infinity, which is not a finite
number; and the multipart handler resolves the duration to 0 when neither
the form field nor the transcription provides one. -/
theorem claim_C8_zero_duration (ws : List Word) (h : ws ≠ []) :
    getField (analyzeMetrics (some ws) 0) "wordsPerMinute" = some (.num .posInf)
    ∧ JSNum.posInf.isFinite = false
    ∧ resolveDuration none none = 0 := by
  have hl : ¬ ws.length = 0 := by simpa [List.length_eq_zero] using h
  have hpos : (0 : ℚ) < (ws.length : ℚ) := by
    exact_mod_cast Nat.pos_of_ne_zero hl
  refine ⟨?_, rfl, rfl⟩
  simp [analyzeMetrics, hl, getField, List.find?, jsDivQ, hpos.ne', hpos,
    JSNum.times60, JSNum.round]

/-- Witness for C8 at one word. -/
theorem claim_C8_witness :
    ([⟨"a", 0, 1⟩] : List Word) ≠ [] ∧
    (getField (analyzeMetrics (some [⟨"a", 0, 1⟩]) 0) "wordsPerMinute" = some (.num .posInf)
      ∧ JSNum.posInf.isFinite = false
      ∧ resolveDuration none none = 0) :=
  ⟨by decide, claim_C8_zero_duration [⟨"a", 0, 1⟩] (by decide)⟩

/-- C9: the object returned for a non-empty word sequence has a
`pauseCount` field, while the default object returned for null, undefined
or empty words does not. -/
theorem claim_C9_shape (ws : List Word) (d : ℚ) (h : ws ≠ []) :
    "pauseCount" ∈ (analyzeMetrics (some ws) d).map Prod.fst
    ∧ "pauseCount" ∉ (analyzeMetrics none d).map Prod.fst
    ∧ "pauseCount" ∉ (analyzeMetrics (some []) d).map Prod.fst := by
  have hl : ¬ ws.length = 0 := by simpa [List.length_eq_zero] using h
  refine ⟨?_, by simp [analyzeMetrics, defaultMetrics], by simp [analyzeMetrics, defaultMetrics]⟩
  simp [analyzeMetrics, hl]

/-- Witness for C9 at one word. -/
theorem claim_C9_witness :
    ([⟨"a", 0, 1⟩] : List Word) ≠ [] ∧
    ("pauseCount" ∈ (analyzeMetrics (some [⟨"a", 0, 1⟩]) 1).map Prod.fst
      ∧ "pauseCount" ∉ (analyzeMetrics none 1).map Prod.fst
      ∧ "pauseCount" ∉ (analyzeMetrics (some []) 1).map Prod.fst) :=
  ⟨by decide, claim_C9_shape [⟨"a", 0, 1⟩] 1 (by decide)⟩

theorem foldl_count_aux (P : Word → Bool) (l : List Word) : ∀ n : ℕ,
    l.foldl (fun acc w => if P w then acc + 1 else acc) n = n + l.countP P := by
  induction l with
  | nil => intro n; simp
  | cons w t ih =>
    intro n
    simp only [List.foldl_cons, List.countP_cons]
    cases hw : P w
    · simp [hw, ih]
    · simp [hw, ih]
      omega

theorem fillerCount_eq_countP (ws : List Word) :
    fillerCount ws = ws.countP (fun w => decide (jsTrim (jsToLower w.word) ∈ fillerWords)) := by
  have hfun : (fun w : Word => fillerWords.contains (jsTrim (jsToLower w.word)))
      = (fun w : Word => decide (jsTrim (jsToLower w.word) ∈ fillerWords)) := by
    funext w
    simp
  have := foldl_count_aux (fun w : Word => fillerWords.contains (jsTrim (jsToLower w.word))) ws 0
  rw [fillerCount, this, hfun]
  simp

/-- C3: for a non-empty word sequence, the returned `fillerWordCount` is
the number of word entries whose text, lowercased then trimmed, is exactly
one of the eight filler words. -/
theorem claim_C3_filler_count (ws : List Word) (d : ℚ) (h : ws ≠ []) :
    getField (analyzeMetrics (some ws) d) "fillerWordCount"
      = some (.num (.finite ((ws.countP (fun w => decide (jsTrim (jsToLower w.word)
          ∈ (["um", "uh", "like", "you know", "so", "basically", "actually", "literally"] : List String)))) : ℚ))) := by
  have hl : ¬ ws.length = 0 := by simpa [List.length_eq_zero] using h
  simp [analyzeMetrics, hl, getField, List.find?, fillerCount_eq_countP, fillerWords]

/-- Witness for C3 at a one-filler input. -/
theorem claim_C3_witness :
    ([⟨"Um", 0, 1⟩] : List Word) ≠ [] ∧
    getField (analyzeMetrics (some [⟨"Um", 0, 1⟩]) 1) "fillerWordCount"
      = some (.num (.finite ((([⟨"Um", 0, 1⟩] : List Word).countP (fun w => decide (jsTrim (jsToLower w.word)
          ∈ (["um", "uh", "like", "you know", "so", "basically", "actually", "literally"] : List String)))) : ℚ))) :=
  ⟨by decide, claim_C3_filler_count [⟨"Um", 0, 1⟩] 1 (by decide)⟩

/-- C2: for a non-empty word sequence, a pause is recorded exactly for the
consecutive gaps strictly greater than 0.2 seconds: `pauseCount` is the
number of those gaps, and when at least one exists, `longestPause` is the
greatest of them and `averagePauseDuration` their arithmetic mean, both
rendered with two decimal places. -/
theorem claim_C2_pause_stats (ws : List Word) (d : ℚ) (h : ws ≠ []) :
    getField (analyzeMetrics (some ws) d) "pauseCount"
      = some (.num (.finite ((specPauses ws).length : ℚ)))
    ∧ (specPauses ws ≠ [] →
        getField (analyzeMetrics (some ws) d) "averagePauseDuration"
            = some (.str (toFixed2 ((specPauses ws).sum / ((specPauses ws).length : ℚ))))
          ∧ getField (analyzeMetrics (some ws) d) "longestPause"
            = some (.str (toFixed2 (maxQ (specPauses ws))))
          ∧ maxQ (specPauses ws) ∈ specPauses ws
          ∧ ∀ x ∈ specPauses ws, x ≤ maxQ (specPauses ws)) := by
  have hl : ¬ ws.length = 0 := by simpa [List.length_eq_zero] using h
  constructor
  · simp [analyzeMetrics, hl, getField, List.find?, pauses_eq_specPauses]
  · intro hne
    have hlen : 0 < (specPauses ws).length := List.length_pos.mpr hne
    refine ⟨?_, ?_, maxQ_mem _ hne, le_maxQ _⟩
    · simp [analyzeMetrics, hl, getField, List.find?, pauses_eq_specPauses, hlen,
        qdiv_eq, sumQ_eq_sum]
    · simp [analyzeMetrics, hl, getField, List.find?, pauses_eq_specPauses, hlen]

/-- Witness for C2 at a two-word input with a single one-second pause. -/
theorem claim_C2_witness :
    ([⟨"a", 0, 1⟩, ⟨"b", 2, 3⟩] : List Word) ≠ [] ∧
    (getField (analyzeMetrics (some [⟨"a", 0, 1⟩, ⟨"b", 2, 3⟩]) 1) "pauseCount"
        = some (.num (.finite ((specPauses [⟨"a", 0, 1⟩, ⟨"b", 2, 3⟩]).length : ℚ)))
      ∧ (specPauses [⟨"a", 0, 1⟩, ⟨"b", 2, 3⟩] ≠ [] →
          getField (analyzeMetrics (some [⟨"a", 0, 1⟩, ⟨"b", 2, 3⟩]) 1) "averagePauseDuration"
              = some (.str (toFixed2 ((specPauses [⟨"a", 0, 1⟩, ⟨"b", 2, 3⟩]).sum
                  / ((specPauses [⟨"a", 0, 1⟩, ⟨"b", 2, 3⟩]).length : ℚ))))
            ∧ getField (analyzeMetrics (some [⟨"a", 0, 1⟩, ⟨"b", 2, 3⟩]) 1) "longestPause"
              = some (.str (toFixed2 (maxQ (specPauses [⟨"a", 0, 1⟩, ⟨"b", 2, 3⟩]))))
            ∧ maxQ (specPauses [⟨"a", 0, 1⟩, ⟨"b", 2, 3⟩]) ∈ specPauses [⟨"a", 0, 1⟩, ⟨"b", 2, 3⟩]
            ∧ ∀ x ∈ specPauses [⟨"a", 0, 1⟩, ⟨"b", 2, 3⟩],
                x ≤ maxQ (specPauses [⟨"a", 0, 1⟩, ⟨"b", 2, 3⟩]))) :=
  ⟨by decide, claim_C2_pause_stats [⟨"a", 0, 1⟩, ⟨"b", 2, 3⟩] 1 (by decide)⟩

/-- C10: for a non-empty word sequence, `averagePauseDuration` and
`longestPause` are strings (two-decimal renderings) when at least one
pause was detected, and the number 0 otherwise, so their dynamic type
depends on the input. -/
theorem claim_C10_pause_field_types (ws : List Word) (d : ℚ) (h : ws ≠ []) :
    (specPauses ws ≠ [] →
        (∃ s, getField (analyzeMetrics (some ws) d) "averagePauseDuration" = some (.str s))
      ∧ (∃ s, getField (analyzeMetrics (some ws) d) "longestPause" = some (.str s)))
    ∧ (specPauses ws = [] →
        getField (analyzeMetrics (some ws) d) "averagePauseDuration" = some (.num (.finite 0))
      ∧ getField (analyzeMetrics (some ws) d) "longestPause" = some (.num (.finite 0))) := by
  have hl : ¬ ws.length = 0 := by simpa [List.length_eq_zero] using h
  constructor
  · intro hne
    have hlen : 0 < (specPauses ws).length := List.length_pos.mpr hne
    constructor
    · refine ⟨toFixed2 (qdiv (sumQ (specPauses ws)) ((specPauses ws).length : ℚ)), ?_⟩
      simp [analyzeMetrics, hl, getField, List.find?, pauses_eq_specPauses, hlen]
    · refine ⟨toFixed2 (maxQ (specPauses ws)), ?_⟩
      simp [analyzeMetrics, hl, getField, List.find?, pauses_eq_specPauses, hlen]
  · intro he
    constructor
    · simp [analyzeMetrics, hl, getField, List.find?, pauses_eq_specPauses, he]
    · simp [analyzeMetrics, hl, getField, List.find?, pauses_eq_specPauses, he]

/-- Witness for C10 at a two-word input with no pause (gap 0.1 seconds,
written as 1/10). -/
theorem claim_C10_witness :
    ([⟨"a", 0, 1⟩, ⟨"b", qadd 1 (mkRat 1 10), 2⟩] : List Word) ≠ [] ∧
    ((specPauses [⟨"a", 0, 1⟩, ⟨"b", qadd 1 (mkRat 1 10), 2⟩] ≠ [] →
        (∃ s, getField (analyzeMetrics (some [⟨"a", 0, 1⟩, ⟨"b", qadd 1 (mkRat 1 10), 2⟩]) 1)
            "averagePauseDuration" = some (.str s))
      ∧ (∃ s, getField (analyzeMetrics (some [⟨"a", 0, 1⟩, ⟨"b", qadd 1 (mkRat 1 10), 2⟩]) 1)
            "longestPause" = some (.str s)))
    ∧ (specPauses [⟨"a", 0, 1⟩, ⟨"b", qadd 1 (mkRat 1 10), 2⟩] = [] →
        getField (analyzeMetrics (some [⟨"a", 0, 1⟩, ⟨"b", qadd 1 (mkRat 1 10), 2⟩]) 1)
            "averagePauseDuration" = some (.num (.finite 0))
      ∧ getField (analyzeMetrics (some [⟨"a", 0, 1⟩, ⟨"b", qadd 1 (mkRat 1 10), 2⟩]) 1)
            "longestPause" = some (.num (.finite 0)))) :=
  ⟨by decide, claim_C10_pause_field_types [⟨"a", 0, 1⟩, ⟨"b", qadd 1 (mkRat 1 10), 2⟩] 1 (by decide)⟩

theorem notified_conditions (st : Option Settings) (c : ReminderCtx)
    (hn : (sendDailyReminder st c).notified = true) :
    ∃ s, st = some s ∧ s.enabled = true
      ∧ (∀ t, c.stats = .ok (some t) → ¬(t.lastDate = c.today ∧ 0 < t.todaySpeeches))
      ∧ s.lastNotificationDate ≠ some c.today
      ∧ (s.timeH < c.nowH ∨ (c.nowH = s.timeH ∧ s.timeM ≤ c.nowM)) := by
  unfold sendDailyReminder at hn
  by_cases hsp : shouldSendNotification (if c.settingsReadFails then .error () else .ok st)
      c.stats c.today c.nowH c.nowM = true
  case neg => rw [if_neg hsp] at hn; exact absurd hn (by simp)
  case pos =>
  clear hn
  cases hrf : c.settingsReadFails with
  | true => rw [hrf] at hsp; simp [shouldSendNotification] at hsp
  | false =>
    rw [hrf] at hsp
    cases st with
    | none => simp [shouldSendNotification] at hsp
    | some s =>
      refine ⟨s, rfl, ?_⟩
      simp only [shouldSendNotification, if_true] at hsp
      by_cases he : s.enabled
      case neg => simp [he] at hsp
      case pos =>
      simp only [he, Bool.not_true, Bool.false_eq_true, if_false] at hsp
      cases hstats : c.stats with
      | error e => rw [hstats] at hsp; simp at hsp
      | ok sto =>
        rw [hstats] at hsp
        cases sto with
        | none =>
          have hsp' : (if (s.lastNotificationDate == some c.today) = true then false
              else decide (s.timeH < c.nowH)
                || (decide (c.nowH = s.timeH) && decide (s.timeM ≤ c.nowM))) = true := hsp
          by_cases hb : (s.lastNotificationDate == some c.today) = true
          · rw [if_pos hb] at hsp'
            exact absurd hsp' (by simp)
          · rw [if_neg hb] at hsp'
            refine ⟨he, ?_, ?_, ?_⟩
            · intro t hteq
              exact absurd hteq (by simp)
            · intro hEq
              apply hb
              rw [hEq]
              simp
            · simpa using hsp'
        | some t =>
          have hsp' : (if (t.lastDate == c.today && decide (0 < t.todaySpeeches)) = true then false
              else if (s.lastNotificationDate == some c.today) = true then false
              else decide (s.timeH < c.nowH)
                || (decide (c.nowH = s.timeH) && decide (s.timeM ≤ c.nowM))) = true := hsp
          by_cases hp : (t.lastDate == c.today && decide (0 < t.todaySpeeches)) = true
          · rw [if_pos hp] at hsp'
            exact absurd hsp' (by simp)
          · rw [if_neg hp] at hsp'
            by_cases hb : (s.lastNotificationDate == some c.today) = true
            · rw [if_pos hb] at hsp'
              exact absurd hsp' (by simp)
            · rw [if_neg hb] at hsp'
              refine ⟨he, ?_, ?_, ?_⟩
              · intro t' hteq hcontra
                have ht : some t = some t' := by
                  injection hteq
                have ht' : t = t' := by
                  injection ht
                subst ht'
                simp only [beq_iff_eq, Bool.and_eq_true, decide_eq_true_eq] at hp
                exact hp ⟨hcontra.1, hcontra.2⟩
              · intro hEq
                apply hb
                rw [hEq]
                simp
              · simpa using hsp'

theorem notified_update (st : Option Settings) (c : ReminderCtx) (s : Settings)
    (hst : st = some s) (h2 : c.settingsReadFails2 = false) (h3 : c.saveFails = false)
    (hn : (sendDailyReminder st c).notified = true) :
    (sendDailyReminder st c).stored = some { s with lastNotificationDate := some c.today } := by
  subst hst
  unfold sendDailyReminder at hn ⊢
  by_cases hsp : shouldSendNotification (if c.settingsReadFails then .error () else .ok (some s))
      c.stats c.today c.nowH c.nowM = true
  · rw [if_pos hsp]
    simp [h2, h3]
  · rw [if_neg hsp] at hn
    exact absurd hn (by simp)

theorem step_not_notified (st : Option Settings) (c : ReminderCtx)
    (hn : (sendDailyReminder st c).notified = false) :
    (sendDailyReminder st c).stored = st := by
  unfold sendDailyReminder at hn ⊢
  by_cases hsp : shouldSendNotification (if c.settingsReadFails then .error () else .ok st)
      c.stats c.today c.nowH c.nowM = true
  · rw [if_pos hsp] at hn
    exact absurd hn (by simp)
  · rw [if_neg hsp]

theorem shouldSend_false_sent (s : Settings) (statsRes : Except Unit (Option Stats))
    (today : String) (nowH nowM : Nat) (h : s.lastNotificationDate = some today) :
    shouldSendNotification (.ok (some s)) statsRes today nowH nowM = false := by
  cases statsRes <;> simp [shouldSendNotification, h]

theorem runReminders_quiet (ctxs : List ReminderCtx) (D : String) : ∀ st : Option Settings,
    (∀ c ∈ ctxs, c.today = D) →
    (st = none ∨ ∃ s, st = some s ∧ s.lastNotificationDate = some D) →
    runReminders st ctxs = [] := by
  induction ctxs with
  | nil => intro st _ _; rfl
  | cons c rest ih =>
    intro st hd hinv
    have hcd : c.today = D := hd c (List.mem_cons_self _ _)
    have hfalse : shouldSendNotification (if c.settingsReadFails then .error () else .ok st)
        c.stats c.today c.nowH c.nowM = false := by
      cases hrf : c.settingsReadFails with
      | true => simp [shouldSendNotification]
      | false =>
        simp only [Bool.false_eq_true, if_false]
        rcases hinv with rfl | ⟨s, rfl, hlast⟩
        · simp [shouldSendNotification]
        · exact shouldSend_false_sent s c.stats c.today c.nowH c.nowM (by rw [hlast, hcd])
    have hstep : sendDailyReminder st c = ⟨false, st⟩ := by
      unfold sendDailyReminder
      simp [hfalse]
    simp only [runReminders, hstep]
    simp only [Bool.false_eq_true, if_false, List.nil_append]
    exact ih st (fun c' hc' => hd c' (List.mem_cons_of_mem _ hc')) hinv

theorem runReminders_single_day (ctxs : List ReminderCtx) (D : String) : ∀ st : Option Settings,
    (∀ c ∈ ctxs, c.today = D ∧ c.settingsReadFails2 = false ∧ c.saveFails = false) →
    (runReminders st ctxs).length ≤ 1 := by
  induction ctxs with
  | nil => intro st _; simp [runReminders]
  | cons c rest ih =>
    intro st h
    obtain ⟨hcd, h2, h3⟩ := h c (List.mem_cons_self _ _)
    have hrest : ∀ c' ∈ rest, c'.today = D ∧ c'.settingsReadFails2 = false ∧ c'.saveFails = false :=
      fun c' hc' => h c' (List.mem_cons_of_mem _ hc')
    by_cases hnot : (sendDailyReminder st c).notified = true
    · obtain ⟨s, hst, -, -, -, -⟩ := notified_conditions st c hnot
      have hupd := notified_update st c s hst h2 h3 hnot
      have hquiet : runReminders (sendDailyReminder st c).stored rest = [] := by
        rw [hupd]
        exact runReminders_quiet rest D _
          (fun c' hc' => (hrest c' hc').1)
          (Or.inr ⟨_, rfl, by simp [hcd]⟩)
      simp [runReminders, hnot, hquiet]
    · have hnf : (sendDailyReminder st c).notified = false := by
        revert hnot
        cases (sendDailyReminder st c).notified <;> simp
      have hkeep := step_not_notified st c hnf
      simp only [runReminders, hnf, Bool.false_eq_true, if_false, List.nil_append, hkeep]
      exact ih st hrest

/-- C5: on every failure path the error is caught and a generic error
response or neutral fallback is returned: the audio feedback handler's
catch responds with a 4xx/5xx JSON error (the forwarded `error.status`
values come from the OpenAI client's HTTP failures, which carry 4xx/5xx
statuses, or the status is absent or falsy and 500 is used), the plain
text handler's catch responds 500, and `shouldSendNotification` returns
false when either storage read throws.  No retry appears in the model:
each catch immediately produces its response. -/
theorem claim_C5_catch_and_fallback :
    (∀ (hasApiKey : Bool) (e : JsError),
        (e.status = none ∨ e.status = some 0 ∨ (∃ s, e.status = some s ∧ 400 ≤ s ∧ s < 600)) →
        400 ≤ (catchFeedbackError hasApiKey e).1 ∧ (catchFeedbackError hasApiKey e).1 < 600)
    ∧ catchSimpleFeedbackError = (500, "Failed to generate feedback")
    ∧ (∀ (settingsRes : Except Unit (Option Settings)) (statsRes : Except Unit (Option Stats))
        (today : String) (nowH nowM : Nat),
        (settingsRes = .error () ∨ statsRes = .error ()) →
        shouldSendNotification settingsRes statsRes today nowH nowM = false) := by
  refine ⟨?_, rfl, ?_⟩
  · intro hasApiKey e he
    rcases he with h | h | ⟨s, hs, h4, h6⟩
    · rw [catchFeedbackError, h]
      cases hasApiKey <;> simp
    · rw [catchFeedbackError, h]
      cases hasApiKey <;> simp
    · rw [catchFeedbackError, hs]
      have hne : s ≠ 0 := by omega
      simp [hne]
      omega
  · intro settingsRes statsRes today nowH nowM h
    rcases h with rfl | rfl
    · rfl
    · cases settingsRes with
      | error e => rfl
      | ok os =>
        cases os with
        | none => rfl
        | some s =>
          cases he : s.enabled <;> simp [shouldSendNotification, he]

/-- Witness for C5: a status-less thrown error with the API key configured,
and an eligibility check whose settings read throws. -/
theorem claim_C5_witness :
    ((JsError.mk none "network failure").status = none
      ∨ (JsError.mk none "network failure").status = some 0
      ∨ (∃ s, (JsError.mk none "network failure").status = some s ∧ 400 ≤ s ∧ s < 600))
    ∧ (400 ≤ (catchFeedbackError true (JsError.mk none "network failure")).1
        ∧ (catchFeedbackError true (JsError.mk none "network failure")).1 < 600)
    ∧ shouldSendNotification (.error ()) (.ok none) "Mon Jan 01 2026" 9 0 = false :=
  ⟨Or.inl rfl,
   claim_C5_catch_and_fallback.1 true (JsError.mk none "network failure") (Or.inl rfl),
   claim_C5_catch_and_fallback.2.2 (.error ()) (.ok none) "Mon Jan 01 2026" 9 0 (Or.inl rfl)⟩

/-- C7 counterexample: when the post-notification settings save throws (the
catch at sw.js lines 176-178 swallows the error), `lastNotificationDate`
is not set, so a second invocation on the same calendar day shows a second
reminder: the claim's guarantee of at most one reminder per day fails as
stated.  The trace below shows the same day twice, and the first step's
stored settings are unchanged after the notification. -/
theorem claim_C7_counterexample :
    runReminders (some (Settings.mk true 9 0 none))
      [ReminderCtx.mk (Except.ok none) false false true "Mon Jan 01 2026" 10 0,
       ReminderCtx.mk (Except.ok none) false false false "Mon Jan 01 2026" 10 0]
      = ["Mon Jan 01 2026", "Mon Jan 01 2026"]
    ∧ (sendDailyReminder (some (Settings.mk true 9 0 none))
        (ReminderCtx.mk (Except.ok none) false false true "Mon Jan 01 2026" 10 0)).stored
      = some (Settings.mk true 9 0 none) := by
  decide

/-- C7 (amended): a reminder is shown only when the stored settings exist
with notifications enabled, the stored stats do not record a practiced
speech for today, `lastNotificationDate` differs from today, and the wall
clock is at or past the scheduled time; when the post-notification
settings re-read and save succeed, `lastNotificationDate` is set to
today; and on a single calendar day on which every post-notification
update succeeds, at most one reminder is shown.  (As stated the claim
fails when the update throws; see the counterexample.) -/
theorem claim_C7_amended_daily_reminder :
    (∀ (st : Option Settings) (c : ReminderCtx),
        (sendDailyReminder st c).notified = true →
        ∃ s, st = some s ∧ s.enabled = true
          ∧ (∀ t, c.stats = .ok (some t) → ¬(t.lastDate = c.today ∧ 0 < t.todaySpeeches))
          ∧ s.lastNotificationDate ≠ some c.today
          ∧ (s.timeH < c.nowH ∨ (c.nowH = s.timeH ∧ s.timeM ≤ c.nowM)))
    ∧ (∀ (st : Option Settings) (c : ReminderCtx) (s : Settings),
        st = some s → c.settingsReadFails2 = false → c.saveFails = false →
        (sendDailyReminder st c).notified = true →
        (sendDailyReminder st c).stored = some { s with lastNotificationDate := some c.today })
    ∧ (∀ (st : Option Settings) (ctxs : List ReminderCtx) (D : String),
        (∀ c ∈ ctxs, c.today = D ∧ c.settingsReadFails2 = false ∧ c.saveFails = false) →
        (runReminders st ctxs).length ≤ 1) :=
  ⟨notified_conditions,
   fun st c s hst h2 h3 hn => notified_update st c s hst h2 h3 hn,
   fun st ctxs D h => runReminders_single_day ctxs D st h⟩

/-- Witness for C7: a one-step error-free trace on one day shows at most
one reminder. -/
theorem claim_C7_witness :
    (runReminders (some (Settings.mk true 9 0 none))
      [ReminderCtx.mk (Except.ok none) false false false "Mon Jan 01 2026" 10 0]).length ≤ 1 :=
  claim_C7_amended_daily_reminder.2.2 (some (Settings.mk true 9 0 none))
    [ReminderCtx.mk (Except.ok none) false false false "Mon Jan 01 2026" 10 0]
    "Mon Jan 01 2026" (by decide)
